import Mathlib

/-!
# Verification of the Tinta4Plus display/watchdog agent

This file gives a shallow embedding, in Lean 4, of the three Python modules
of the repository (`WatchdogTimer.py`, `DisplayManager.py`, `WacomManager.py`)
and proves or refutes the specification claims about them.

Modelling conventions:
* Python strings are `List Char`; `str.lower`, `in`, `split`, `strip` are
  embedded as structurally recursive functions below.
* Fallible Python code is `Except PyErr α`; a bare `except Exception` block
  is `pyCatchAll`.
* `threading.Timer` objects are records carrying the `finished` flag set by
  `Timer.cancel()` (field `cancelled`), whether the timer thread has passed
  its fire-decision point (`decided` — the `if not self.finished.is_set()`
  check inside `Timer.run`), and whether it actually invoked its function
  (`fired`).  The whole watchdog is a labelled transition system whose
  atomic steps are: a `reset()` call, a `cancel()` call (both of which hold
  `self.lock` for their entire body, and are therefore single steps), and
  the fire-decision point of one timer thread (a single atomic read of that
  timer's own `finished` event; `_expired` never touches `self.timer` or
  the lock, so this is the only interaction point of the timer thread with
  shared state).
-/

set_option maxRecDepth 4000

/-- Python exception classes that the embedded code can raise.  All of them
are subclasses of `Exception` in Python, hence caught by a bare
`except Exception` handler. -/
inductive PyErr where
  | calledProcessError
  | timeoutExpired
  | fileNotFoundError
  | valueError
  | indexError
  | runtimeError
  | invalidConfiguration
  deriving DecidableEq

/-- Log levels of the `logging` calls in the source. -/
inductive LogLevel where
  | debug
  | info
  | warning
  | error
  deriving DecidableEq

/-! ## Python string primitives over `List Char` -/

/-- `l₁.isPrefixOf l₂` for char lists (Boolean). -/
def isPrefixL : List Char → List Char → Bool
  | [], _ => true
  | _ :: _, [] => false
  | a :: as, b :: bs => a = b && isPrefixL as bs

/-- Python's substring test `needle in hay`. -/
def pyIn (needle : List Char) : List Char → Bool
  | [] => isPrefixL needle []
  | c :: rest => isPrefixL needle (c :: rest) || pyIn needle rest

/-- Python's `str.lower()` (ASCII case folding suffices for the device and
display names handled by the source). -/
def pyLower (l : List Char) : List Char := l.map Char.toLower

/-- Python's `str.split(sep)` for a single-character separator `c`. -/
def splitOnC (c : Char) : List Char → List (List Char)
  | [] => [[]]
  | a :: rest =>
    let r := splitOnC c rest
    if a = c then [] :: r
    else
      match r with
      | [] => [[a]]
      | h :: t => (a :: h) :: t

/-- Helper for `splitOnSub`: fuel-indexed scan for a multi-character
separator, mirroring Python's left-to-right non-overlapping `str.split`. -/
def splitOnSubFuel (sep : List Char) : Nat → List Char → List (List Char)
  | 0, s => [s]
  | _ + 1, [] => [[]]
  | fuel + 1, c :: rest =>
    if isPrefixL sep (c :: rest) then
      [] :: splitOnSubFuel sep fuel (rest.drop (sep.length - 1))
    else
      match splitOnSubFuel sep fuel rest with
      | [] => [[c]]
      | h :: t => (c :: h) :: t

/-- Python's `str.split(sep)` for a (nonempty) multi-character separator. -/
def splitOnSub (sep s : List Char) : List (List Char) :=
  splitOnSubFuel sep s.length s

/-- The whitespace predicate used by Python's no-argument `str.split()` and
`str.strip()` on the ASCII text handled here. -/
def isWs (c : Char) : Bool := c = ' ' || c = '\t' || c = '\n' || c = '\r'

/-- Split at every character satisfying `p`, keeping empty chunks. -/
def splitOnPC (p : Char → Bool) : List Char → List (List Char)
  | [] => [[]]
  | a :: rest =>
    let r := splitOnPC p rest
    if p a then [] :: r
    else
      match r with
      | [] => [[a]]
      | h :: t => (a :: h) :: t

/-- Python's no-argument `str.split()`: split on whitespace runs, dropping
empty fields. -/
def pySplitWs (l : List Char) : List (List Char) :=
  (splitOnPC isWs l).filter (fun t => t ≠ [])

/-- Python's no-argument `str.strip()`. -/
def stripWs (l : List Char) : List Char :=
  ((l.dropWhile isWs).reverse.dropWhile isWs).reverse

/-- Digit-string accumulator for `int(...)`. -/
def digitsValAux : List Char → Nat → Option Nat
  | [], acc => some acc
  | c :: rest, acc =>
    if c.isDigit then digitsValAux rest (acc * 10 + (c.toNat - 48)) else none

/-- Python's `int(str)`: optional surrounding whitespace, optional sign,
then a nonempty digit string; everything else raises `ValueError`. -/
def strToInt? (l : List Char) : Option Int :=
  match stripWs l with
  | [] => none
  | c :: rest =>
    if c = '-' then
      match rest with
      | [] => none
      | _ => (digitsValAux rest 0).map (fun n => -(n : Int))
    else if c = '+' then
      match rest with
      | [] => none
      | _ => (digitsValAux rest 0).map (fun n => (n : Int))
    else (digitsValAux (c :: rest) 0).map (fun n => (n : Int))

/-- Python's `int(str)` as a fallible computation (`ValueError` on bad
input). -/
def pyInt (l : List Char) : Except PyErr Int :=
  match strToInt? l with
  | some n => .ok n
  | none => .error .valueError

/-- Python's `list[i]` for `i ≥ 0`: raises `IndexError` when out of range. -/
def pyGetItem (l : List α) (i : Nat) : Except PyErr α :=
  match l.get? i with
  | some a => .ok a
  | none => .error .indexError

/-- A bare `try: body ... except Exception: log; return dflt` wrapper. -/
def pyCatchAll (body : Except PyErr α) (dflt : α) : Except PyErr α :=
  match body with
  | .ok a => .ok a
  | .error _ => .ok dflt

/-! ## Subprocess model

`subprocess.run(cmd, capture_output=True, timeout=...)` either completes
(with a return code and captured stdout), exceeds its timeout
(`TimeoutExpired`), or cannot execute the command at all
(`FileNotFoundError`, e.g. the binary is not installed). -/

/-- Captured result of a completed subprocess. -/
structure SubprocResult where
  returncode : Int
  stdout : List Char
  deriving DecidableEq

/-- Outcome of one `subprocess.run` invocation, supplied by the
environment. -/
inductive SubprocOutcome where
  | completed (r : SubprocResult)
  | timedOut
  | execMissing
  deriving DecidableEq

/-- `subprocess.run(...)` without `check=True`: a completed process is
returned regardless of exit code. -/
def pyRun : SubprocOutcome → Except PyErr SubprocResult
  | .completed r => .ok r
  | .timedOut => .error .timeoutExpired
  | .execMissing => .error .fileNotFoundError

/-- `subprocess.run(..., check=True)`: additionally raises
`CalledProcessError` on a nonzero exit code. -/
def pyRunCheck (o : SubprocOutcome) : Except PyErr SubprocResult := do
  let r ← pyRun o
  if r.returncode ≠ 0 then .error .calledProcessError else .ok r

/-! ## WatchdogTimer (`src/WatchdogTimer.py`)

State of one `threading.Timer` object and of the whole watchdog instance.
Timers are identified by their creation index in `WState.timers`; `cur`
is the `self.timer` field (`none` = Python `None`). -/

/-- One `threading.Timer`:
* `cancelled` — its `finished` event was set by `Timer.cancel()`;
* `decided`   — its thread passed the fire-decision point
  (`if not self.finished.is_set()` in `Timer.run`);
* `fired`     — at that decision point the event was unset, so the timer
  invoked its function (`WatchdogTimer._expired`, which calls the
  callback). -/
structure TimerSt where
  cancelled : Bool
  decided : Bool
  fired : Bool
  deriving DecidableEq

/-- A freshly created and started timer (`threading.Timer(timeout, f)`
followed by `start()`). -/
def newTimer : TimerSt := ⟨false, false, false⟩

/-- `Timer.cancel()`: set the `finished` event.  Idempotent; harmless on a
timer that already ran. -/
def cancelTimer (t : TimerSt) : TimerSt := { t with cancelled := true }

/-- Whole-instance state of a `WatchdogTimer`. -/
structure WState where
  timeout : Int
  timers : List TimerSt
  cur : Option Nat
  deriving DecidableEq

/-- Replace the element at index `i` (identity when out of range). -/
def modifyAt (f : α → α) : Nat → List α → List α
  | _, [] => []
  | 0, a :: l => f a :: l
  | n + 1, a :: l => a :: modifyAt f n l

/-- The timer at creation index `i`; out-of-range indices read as a spent
timer (cancelled, decided, never fired), so they are never live. -/
def timerAt (s : WState) (i : Nat) : TimerSt :=
  s.timers.getD i ⟨true, true, false⟩

/-- A timer is live (capable of firing the callback in the future) iff it
was neither cancelled nor has passed its fire-decision point. -/
def isLive (t : TimerSt) : Bool := !t.cancelled && !t.decided

/-- `WatchdogTimer.reset()` — the whole body runs under `self.lock`:
`if self.timer: self.timer.cancel()`, then create, daemonise and start a
fresh `threading.Timer(self.timeout, self._expired)` and store it in
`self.timer`. -/
def WatchdogTimer.reset (s : WState) : WState :=
  let ts :=
    match s.cur with
    | some i => modifyAt cancelTimer i s.timers
    | none => s.timers
  { s with timers := ts ++ [newTimer], cur := some ts.length }

/-- `WatchdogTimer.cancel()` — the whole body runs under `self.lock`:
`if self.timer: self.timer.cancel(); self.timer = None`. -/
def WatchdogTimer.cancel (s : WState) : WState :=
  match s.cur with
  | some i => { s with timers := modifyAt cancelTimer i s.timers, cur := none }
  | none => s

/-- The fire-decision point of timer `i`'s thread: it atomically reads its
own `finished` event; if unset it invokes `_expired` (so the callback
runs: `fired := true`), otherwise it exits silently. -/
def WatchdogTimer.decide (s : WState) (i : Nat) : WState :=
  { s with
    timers := modifyAt (fun t => { t with decided := true, fired := !t.cancelled }) i s.timers }

/-- `WatchdogTimer.__init__(timeout, callback, logger)`: stores the
arguments, sets `self.timer = None`, creates the lock and calls
`self.reset()`.  There is no validation of `timeout` anywhere in the
body. -/
def WatchdogTimer.initState (timeout : Int) : WState :=
  WatchdogTimer.reset { timeout := timeout, timers := [], cur := none }

/-- The constructor as observed by a caller: it contains no `raise` and no
failing operation (`threading.Timer` accepts any numeric interval), so it
always returns the armed state — in particular it never raises an
`InvalidConfiguration` error for `timeout ≤ 0`. -/
def WatchdogTimer.init (timeout : Int) : Except PyErr WState :=
  .ok (WatchdogTimer.initState timeout)

/-- Atomic steps of the watchdog transition system: a `reset()` call, a
`cancel()` call (each holds `self.lock` for its whole body), or the
fire-decision point of one not-yet-decided timer thread. -/
inductive WStep : WState → WState → Prop
  | reset (s : WState) : WStep s (WatchdogTimer.reset s)
  | cancel (s : WState) : WStep s (WatchdogTimer.cancel s)
  | decide (s : WState) (i : Nat) (h : i < s.timers.length)
      (hnd : (timerAt s i).decided = false) : WStep s (WatchdogTimer.decide s i)

/-- States reachable from a freshly constructed watchdog by any
interleaving of `reset()`, `cancel()` and timer-thread decision points. -/
def WReachable (s : WState) : Prop :=
  ∃ timeout : Int, Relation.ReflTransGen WStep (WatchdogTimer.initState timeout) s

/-- `WatchdogTimer._expired`: logs a warning identifying the elapsed
timeout value, then invokes `self.callback()` with no surrounding
`try`/`except` — whatever the callback raises propagates to the timer
thread.  The callback's own outcome is an input (`cb`); the result is the
emitted log records (level paired with the timeout value the message
interpolates) together with what escapes the handler. -/
def WatchdogTimer.expiredRun (timeout : Int) (cb : Except PyErr Unit) :
    List (LogLevel × Int) × Except PyErr Unit :=
  ([(LogLevel.warning, timeout)], cb)

/-- Whether a fallible computation returned normally (`True`) or raised
(`False`). -/
def exceptOk : Except ε α → Bool
  | .ok _ => true
  | .error _ => false

/-! ## Basic lemmas about the list primitives -/

theorem modifyAt_length (f : α → α) :
    ∀ (i : Nat) (l : List α), (modifyAt f i l).length = l.length
  | _, [] => by simp [modifyAt]
  | 0, _ :: _ => by simp [modifyAt]
  | i + 1, _ :: l => by simp [modifyAt, modifyAt_length f i l]

theorem modifyAt_getD (f : α → α) :
    ∀ (l : List α) (i j : Nat) (d : α),
      (modifyAt f i l).getD j d =
        if j = i ∧ j < l.length then f (l.getD j d) else l.getD j d
  | [], i, j, d => by simp [modifyAt]
  | _ :: _, 0, 0, _ => by simp [modifyAt]
  | _ :: _, 0, _ + 1, _ => by simp [modifyAt]
  | _ :: _, _ + 1, 0, _ => by simp [modifyAt]
  | a :: l, i + 1, j + 1, d => by
    simp only [modifyAt, List.getD_cons_succ, modifyAt_getD f l i j d,
      List.length_cons, Nat.add_lt_add_iff_right, Nat.add_right_cancel_iff]

theorem getD_append_single (x d : α) :
    ∀ (l : List α) (j : Nat),
      (l ++ [x]).getD j d =
        if j < l.length then l.getD j d else if j = l.length then x else d
  | [], 0 => by simp
  | [], _ + 1 => by simp
  | a :: l, 0 => by simp
  | a :: l, j + 1 => by
    simp only [List.cons_append, List.getD_cons_succ, getD_append_single x d l j,
      List.length_cons, Nat.add_lt_add_iff_right, Nat.add_right_cancel_iff]

/-! ## Characterisation of the watchdog transitions via `timerAt` -/

theorem timerAt_out_of_range (s : WState) (j : Nat) (h : ¬ j < s.timers.length) :
    timerAt s j = ⟨true, true, false⟩ := by
  unfold timerAt
  rw [List.getD_eq_default]
  omega

theorem lt_length_of_decided_false (s : WState) (j : Nat)
    (h : (timerAt s j).decided = false) : j < s.timers.length := by
  by_contra hj
  rw [timerAt_out_of_range s j hj] at h
  simp at h

theorem cur_reset (s : WState) :
    (WatchdogTimer.reset s).cur = some s.timers.length := by
  unfold WatchdogTimer.reset
  cases h : s.cur <;> simp [h, modifyAt_length]

theorem length_reset (s : WState) :
    (WatchdogTimer.reset s).timers.length = s.timers.length + 1 := by
  unfold WatchdogTimer.reset
  cases h : s.cur <;> simp [h, modifyAt_length]

theorem timerAt_reset (s : WState) (j : Nat) :
    timerAt (WatchdogTimer.reset s) j =
      if j < s.timers.length then
        (if s.cur = some j then cancelTimer (timerAt s j) else timerAt s j)
      else if j = s.timers.length then newTimer else ⟨true, true, false⟩ := by
  unfold timerAt WatchdogTimer.reset
  cases h : s.cur with
  | none =>
    simp only [h]
    rw [getD_append_single]
    split
    · simp
    · rfl
  | some i =>
    simp only [h]
    rw [getD_append_single, modifyAt_length, modifyAt_getD]
    by_cases hj : j < s.timers.length
    · by_cases hij : i = j <;> simp [hj, hij, eq_comm]
    · simp [hj]

theorem cur_cancel (s : WState) : (WatchdogTimer.cancel s).cur = none := by
  unfold WatchdogTimer.cancel
  cases h : s.cur with
  | none => rw [h]
  | some i => simp

theorem length_cancel (s : WState) :
    (WatchdogTimer.cancel s).timers.length = s.timers.length := by
  unfold WatchdogTimer.cancel
  cases h : s.cur <;> simp [h, modifyAt_length]

theorem timerAt_cancel (s : WState) (j : Nat) :
    timerAt (WatchdogTimer.cancel s) j =
      if s.cur = some j ∧ j < s.timers.length then cancelTimer (timerAt s j)
      else timerAt s j := by
  unfold timerAt WatchdogTimer.cancel
  cases h : s.cur with
  | none => simp [h]
  | some i =>
    simp only [h, Option.some.injEq]
    rw [modifyAt_getD]
    by_cases hij : j = i
    · subst hij; by_cases hj : j < s.timers.length <;> simp [hj]
    · have hji : ¬ i = j := fun hh => hij hh.symm
      simp [hij, hji]

theorem cur_decide (s : WState) (i : Nat) :
    (WatchdogTimer.decide s i).cur = s.cur := rfl

theorem length_decide (s : WState) (i : Nat) :
    (WatchdogTimer.decide s i).timers.length = s.timers.length := by
  unfold WatchdogTimer.decide
  simp [modifyAt_length]

theorem timerAt_decide (s : WState) (i j : Nat) :
    timerAt (WatchdogTimer.decide s i) j =
      if j = i ∧ j < s.timers.length then
        { timerAt s j with decided := true, fired := !(timerAt s j).cancelled }
      else timerAt s j := by
  unfold timerAt WatchdogTimer.decide
  rw [modifyAt_getD]

/-! ## The reachability invariant of the watchdog -/

/-- Invariant of every reachable watchdog state:
1. every live timer is the one stored in `self.timer`;
2. a timer that fired has passed its decision point;
3. `self.timer`, when non-null, refers to an existing timer. -/
def WInv (s : WState) : Prop :=
  (∀ i, isLive (timerAt s i) = true → s.cur = some i)
  ∧ (∀ i, (timerAt s i).fired = true → (timerAt s i).decided = true)
  ∧ (∀ i, s.cur = some i → i < s.timers.length)

theorem winv_init (timeout : Int) : WInv (WatchdogTimer.initState timeout) := by
  refine ⟨?_, ?_, ?_⟩
  · intro i hl
    match i with
    | 0 => rfl
    | j + 1 =>
      have hr : ¬ (j + 1 < (WatchdogTimer.initState timeout).timers.length) := by
        simp [WatchdogTimer.initState, WatchdogTimer.reset]
      rw [timerAt_out_of_range _ _ hr] at hl
      simp [isLive] at hl
  · intro i hf
    match i with
    | 0 => exact Bool.noConfusion hf
    | j + 1 =>
      have hr : ¬ (j + 1 < (WatchdogTimer.initState timeout).timers.length) := by
        simp [WatchdogTimer.initState, WatchdogTimer.reset]
      rw [timerAt_out_of_range _ _ hr] at hf
      simp at hf
  · intro i hc
    have h0 : (WatchdogTimer.initState timeout).cur = some 0 := rfl
    rw [h0] at hc
    injection hc with hc
    simp [WatchdogTimer.initState, WatchdogTimer.reset]
    omega

theorem winv_step {s s' : WState} (hs : WInv s) (st : WStep s s') : WInv s' := by
  obtain ⟨h1, h2, h3⟩ := hs
  cases st with
  | reset =>
    refine ⟨?_, ?_, ?_⟩
    · intro i hl
      rw [cur_reset]
      rw [timerAt_reset] at hl
      split_ifs at hl with hlt hcur hnew
      · simp [isLive, cancelTimer] at hl
      · exact absurd (h1 i hl) hcur
      · rw [hnew]
      · simp [isLive] at hl
    · intro i hf
      rw [timerAt_reset] at hf ⊢
      split_ifs at hf ⊢ with hlt hcur hnew
      · simpa [cancelTimer] using h2 i (by simpa [cancelTimer] using hf)
      · exact h2 i hf
      all_goals simp_all [newTimer]
    · intro i hc
      rw [cur_reset] at hc
      rw [length_reset]
      injection hc with hc
      omega
  | cancel =>
    refine ⟨?_, ?_, ?_⟩
    · intro i hl
      rw [timerAt_cancel] at hl
      split_ifs at hl with hcond
      · simp [isLive, cancelTimer] at hl
      · exact absurd ⟨h1 i hl, h3 i (h1 i hl)⟩ hcond
    · intro i hf
      rw [timerAt_cancel] at hf ⊢
      split_ifs at hf ⊢ with hcond
      · simpa [cancelTimer] using h2 i (by simpa [cancelTimer] using hf)
      · exact h2 i hf
    · intro i hc
      rw [cur_cancel] at hc
      cases hc
  | decide k hk hnd =>
    refine ⟨?_, ?_, ?_⟩
    · intro i hl
      rw [cur_decide]
      rw [timerAt_decide] at hl
      split_ifs at hl with hcond
      · simp [isLive] at hl
      · exact h1 i hl
    · intro i hf
      rw [timerAt_decide] at hf ⊢
      split_ifs at hf ⊢ with hcond
      · rfl
      · exact h2 i hf
    · intro i hc
      rw [cur_decide] at hc
      rw [length_decide]
      exact h3 i hc

theorem winv_reachable {s : WState} (hr : WReachable s) : WInv s := by
  obtain ⟨timeout, htr⟩ := hr
  induction htr with
  | refl => exact winv_init timeout
  | tail _ st ih => exact winv_step ih st

/-- Once a timer's `finished` event is set while it has not (yet) invoked
the callback, no later step of any thread can make it invoke the
callback: `cancelled` stays set and `fired` stays clear forever. -/
theorem cancelled_persists {s₀ s₁ : WState}
    (htr : Relation.ReflTransGen WStep s₀ s₁) (t : Nat)
    (h : t < s₀.timers.length ∧ (timerAt s₀ t).cancelled = true ∧
      (timerAt s₀ t).fired = false) :
    t < s₁.timers.length ∧ (timerAt s₁ t).cancelled = true ∧
      (timerAt s₁ t).fired = false := by
  induction htr with
  | refl => exact h
  | tail _ st ih =>
    obtain ⟨hlt, hc, hf⟩ := ih
    cases st with
    | reset =>
      refine ⟨by rw [length_reset]; omega, ?_, ?_⟩
      · rw [timerAt_reset]
        split_ifs with h1
        · simp [cancelTimer]
        · exact hc
      · rw [timerAt_reset]
        split_ifs with h1
        · simpa [cancelTimer] using hf
        · exact hf
    | cancel =>
      refine ⟨by rw [length_cancel]; omega, ?_, ?_⟩
      · rw [timerAt_cancel]
        split_ifs with h1
        · simp [cancelTimer]
        · exact hc
      · rw [timerAt_cancel]
        split_ifs with h1
        · simpa [cancelTimer] using hf
        · exact hf
    | decide k hk hnd =>
      refine ⟨by rw [length_decide]; omega, ?_, ?_⟩
      · rw [timerAt_decide]
        split_ifs with h1
        · exact hc
        · exact hc
      · rw [timerAt_decide]
        split_ifs with h1
        · simp [hc]
        · exact hf

/-- A watchdog whose `self.timer` field is `None` is unchanged by
`cancel()`. -/
theorem cancel_cur_none {s : WState} (h : s.cur = none) :
    WatchdogTimer.cancel s = s := by
  unfold WatchdogTimer.cancel
  rw [h]

/-- C1: from any reachable watchdog state, (a) if `reset()` runs to
completion while the pending timer `t` (the one held in `self.timer`) has
not yet passed its fire-decision point, then along every continuation of
the execution timer `t` never invokes the callback; and (b) in every
reachable state at most one timer is capable of firing the callback (no
window with two simultaneously live deadline timers). -/
theorem C1_reset_prevents_expiry_and_no_double_fire (s : WState)
    (hr : WReachable s) :
    (∀ t, s.cur = some t → (timerAt s t).decided = false →
      ∀ s', Relation.ReflTransGen WStep (WatchdogTimer.reset s) s' →
        (timerAt s' t).fired = false)
    ∧ (∀ i j, isLive (timerAt s i) = true → isLive (timerAt s j) = true →
        i = j) := by
  obtain ⟨h1, h2, h3⟩ := winv_reachable hr
  constructor
  · intro t hcur hnd s' htr
    have hlt : t < s.timers.length := lt_length_of_decided_false s t hnd
    have hf0 : (timerAt s t).fired = false := by
      by_contra hfc
      rw [Bool.not_eq_false] at hfc
      rw [h2 t hfc] at hnd
      exact Bool.noConfusion hnd
    have hstart : t < (WatchdogTimer.reset s).timers.length ∧
        (timerAt (WatchdogTimer.reset s) t).cancelled = true ∧
        (timerAt (WatchdogTimer.reset s) t).fired = false := by
      rw [length_reset, timerAt_reset]
      refine ⟨by omega, ?_, ?_⟩
      · simp [hlt, hcur, cancelTimer]
      · simp [hlt, hcur, cancelTimer, hf0]
    exact (cancelled_persists htr t hstart).2.2
  · intro i j hi hj
    have hij : some i = some j := (h1 i hi).symm.trans (h1 j hj)
    injection hij

/-- Witness for C1 at a concrete run: construct with timeout 5 (the pending
timer is timer 0, not yet decided), call `reset()`; timer 0 has not fired,
and stays so. -/
theorem C1_witness :
    (timerAt (WatchdogTimer.reset (WatchdogTimer.initState 5)) 0).fired
      = false :=
  (C1_reset_prevents_expiry_and_no_double_fire (WatchdogTimer.initState 5)
      ⟨5, Relation.ReflTransGen.refl⟩).1 0 rfl rfl
    (WatchdogTimer.reset (WatchdogTimer.initState 5)) Relation.ReflTransGen.refl

/-- C2 counterexample: the constructor body performs no validation, so
`WatchdogTimer(0, cb, log)` does **not** fail with an invalid-configuration
error: it returns normally and immediately arms a live timer — refuting
the claim that construction with `timeout <= 0` fails. -/
theorem C2_counterexample :
    WatchdogTimer.init 0 = .ok (WatchdogTimer.initState 0)
    ∧ (WatchdogTimer.initState 0).cur = some 0
    ∧ isLive (timerAt (WatchdogTimer.initState 0) 0) = true :=
  ⟨rfl, rfl, rfl⟩

/-- C2 amended: construction never validates `timeout`; for every timeout
value (positive or not) it succeeds, stores the timeout, and immediately
arms a live deadline timer. -/
theorem C2_amended_no_validation (timeout : Int) :
    WatchdogTimer.init timeout = .ok (WatchdogTimer.initState timeout)
    ∧ (WatchdogTimer.initState timeout).timeout = timeout
    ∧ (WatchdogTimer.initState timeout).cur = some 0
    ∧ isLive (timerAt (WatchdogTimer.initState timeout) 0) = true :=
  ⟨rfl, rfl, rfl, rfl⟩

/-- C3 counterexample: when the callback raises, `_expired` lets the
exception escape into the timer thread — the second component of the
handler's outcome is the raised error, refuting the claim that the failure
does not propagate out of the expiry handler. -/
theorem C3_counterexample :
    (WatchdogTimer.expiredRun 5 (.error .runtimeError)).2
      = .error .runtimeError := rfl

/-- C3 amended: the expiry handler logs the warning (identifying the
timeout) and then returns the callback's outcome unchanged: a callback
exception propagates uncaught to the timer infrastructure, and no
additional log record is emitted for it. -/
theorem C3_amended_exception_propagates (timeout : Int)
    (cb : Except PyErr Unit) :
    WatchdogTimer.expiredRun timeout cb = ([(LogLevel.warning, timeout)], cb) :=
  rfl

/-- C4: in every reachable state at most one live timer handle is
outstanding; `cancel()` leaves none; `reset()` first cancels the old
timer and leaves exactly one live timer — the newly installed one. -/
theorem C4_at_most_one_live_timer (s : WState) (hr : WReachable s) :
    (∀ i j, isLive (timerAt s i) = true → isLive (timerAt s j) = true →
      i = j)
    ∧ (∀ i, isLive (timerAt (WatchdogTimer.cancel s) i) = false)
    ∧ (∀ i, s.cur = some i →
        (timerAt (WatchdogTimer.reset s) i).cancelled = true)
    ∧ (∀ i, isLive (timerAt (WatchdogTimer.reset s) i) = true ↔
        i = s.timers.length) := by
  obtain ⟨h1, h2, h3⟩ := winv_reachable hr
  refine ⟨?_, ?_, ?_, ?_⟩
  · intro i j hi hj
    have hij : some i = some j := (h1 i hi).symm.trans (h1 j hj)
    injection hij
  · intro i
    rw [timerAt_cancel]
    split_ifs with h
    · simp [isLive, cancelTimer]
    · by_contra hl
      rw [Bool.not_eq_false] at hl
      exact h ⟨h1 i hl, h3 i (h1 i hl)⟩
  · intro i hc
    rw [timerAt_reset]
    have hlt := h3 i hc
    simp [hlt, hc, cancelTimer]
  · intro i
    rw [timerAt_reset]
    constructor
    · intro hl
      split_ifs at hl with hlt hcur hnew
      · simp [isLive, cancelTimer] at hl
      · exact absurd (h1 i hl) hcur
      · exact hnew
      · simp [isLive] at hl
    · intro he
      subst he
      simp [isLive, newTimer]

/-- Witness for C4 after a concrete `cancel()` on a fresh instance: no
timer of the cancelled watchdog is live. -/
theorem C4_witness :
    isLive (timerAt (WatchdogTimer.cancel (WatchdogTimer.initState 7)) 0)
      = false :=
  (C4_at_most_one_live_timer (WatchdogTimer.initState 7)
      ⟨7, Relation.ReflTransGen.refl⟩).2.1 0

/-- C5: `cancel()` is idempotent: a second `cancel()` (from any state,
including an already-cancelled one) produces exactly the state of the
first, raises nothing (the body has no raising operation), and never
causes a callback invocation (`fired` flags are untouched). -/
theorem C5_cancel_idempotent (s : WState) :
    WatchdogTimer.cancel (WatchdogTimer.cancel s) = WatchdogTimer.cancel s
    ∧ ∀ i, (timerAt (WatchdogTimer.cancel s) i).fired = (timerAt s i).fired := by
  constructor
  · exact cancel_cur_none (cur_cancel s)
  · intro i
    rw [timerAt_cancel]
    split_ifs with h
    · rfl
    · rfl

/-- C6: `reset()` after `cancel()` re-arms the watchdog: `cancel()` only
clears the handle, so the subsequent `reset()` installs a fresh live timer
held in `self.timer`. -/
theorem C6_reset_after_cancel_rearms (s : WState) :
    (WatchdogTimer.reset (WatchdogTimer.cancel s)).cur
        = some (WatchdogTimer.cancel s).timers.length
    ∧ isLive (timerAt (WatchdogTimer.reset (WatchdogTimer.cancel s))
        (WatchdogTimer.cancel s).timers.length) = true := by
  refine ⟨cur_reset _, ?_⟩
  rw [timerAt_reset]
  simp [isLive, newTimer]

/-! ## DisplayManager (`src/DisplayManager.py`)

Each public method takes the outcomes of the subprocess invocations it
performs as explicit inputs and returns what its caller observes: the
returned value, or the exception that escapes.  `time.sleep` calls have no
observable effect in this model. -/

/-- Token constants used by the source's substring tests. -/
def connectedSpaceS : List Char := " connected".data

def connectedS : List Char := "connected".data

def primaryS : List Char := "primary".data

def xTokS : List Char := "x".data

def plusTokS : List Char := "+".data

/-- One entry of `get_displays`'s result (`{'name': ..., 'primary': ...}`). -/
structure Display where
  name : List Char
  primary : Bool
  deriving DecidableEq

/-- Loop body of `get_displays`: collect, in order, a record for every line
containing `' connected'`, with `parts[0]` as name (an `IndexError` would
escape to the method's catch-all handler). -/
def getDisplaysLines : List (List Char) → Except PyErr (List Display)
  | [] => .ok []
  | line :: rest =>
    if pyIn connectedSpaceS line then do
      let name ← pyGetItem (pySplitWs line) 0
      let ds ← getDisplaysLines rest
      .ok (⟨name, pyIn primaryS line⟩ :: ds)
    else getDisplaysLines rest

/-- `DisplayManager.get_displays`: `xrandr --query` (no `check`), parse;
any exception is caught and `[]` returned. -/
def DisplayManager.get_displays (o : SubprocOutcome) :
    Except PyErr (List Display) :=
  pyCatchAll (do
    let r ← pyRun o
    getDisplaysLines (splitOnC '\n' r.stdout)) []

/-- Scan of `is_display_active`: the first line containing the display
name and `' connected'` decides — active iff some whitespace token of it
contains both `'x'` and `'+'`. -/
def isActiveScan (name : List Char) : List (List Char) → Bool
  | [] => false
  | line :: rest =>
    if pyIn name line && pyIn connectedSpaceS line then
      (pySplitWs line).any (fun p => pyIn xTokS p && pyIn plusTokS p)
    else isActiveScan name rest

/-- `DisplayManager.is_display_active`: catch-all converts any failure to
`False`. -/
def DisplayManager.is_display_active (name : List Char) (o : SubprocOutcome) :
    Except PyErr Bool :=
  pyCatchAll (do
    let r ← pyRun o
    .ok (isActiveScan name (splitOnC '\n' r.stdout))) false

/-- `DisplayManager.set_primary`: `xrandr --output <name> --primary` with
`check=True`; catch-all converts any failure to `False`. -/
def DisplayManager.set_primary (o : SubprocOutcome) : Except PyErr Bool :=
  pyCatchAll (do
    let _ ← pyRunCheck o
    .ok true) false

/-- `DisplayManager.enable_display`: run `xrandr --output <name> --auto`
(no `check`), then report whether the display is active; catch-all
converts any failure to `False`. -/
def DisplayManager.enable_display (name : List Char)
    (o1 o2 : SubprocOutcome) : Except PyErr Bool :=
  pyCatchAll (do
    let _ ← pyRun o1
    let active ← DisplayManager.is_display_active name o2
    .ok active) false

/-- `DisplayManager.disable_display`: run `xrandr --output <name> --off`,
then succeed iff the display is no longer active; catch-all converts any
failure to `False`. -/
def DisplayManager.disable_display (name : List Char)
    (o1 o2 : SubprocOutcome) : Except PyErr Bool :=
  pyCatchAll (do
    let _ ← pyRun o1
    let active ← DisplayManager.is_display_active name o2
    .ok (!active)) false

/-- Parsed display geometry (`{'width', 'height', 'x', 'y'}`). -/
structure Geometry where
  width : Int
  height : Int
  x : Int
  y : Int
  deriving DecidableEq

/-- Parsing of one geometry token inside `get_display_geometry`:
`geo = part.split('+')`, `size = geo[0].split('x')`,
`width = int(size[0])`, `height = int(size[1])`,
`x = int(geo[1]) if len(geo) > 1 else 0`,
`y = int(geo[2]) if len(geo) > 2 else 0`. -/
def parseGeoToken (part : List Char) : Except PyErr Geometry := do
  let geo := splitOnC '+' part
  let g0 ← pyGetItem geo 0
  let size := splitOnC 'x' g0
  let s0 ← pyGetItem size 0
  let width ← pyInt s0
  let s1 ← pyGetItem size 1
  let height ← pyInt s1
  let x ← if geo.length > 1 then do pyInt (← pyGetItem geo 1) else .ok 0
  let y ← if geo.length > 2 then do pyInt (← pyGetItem geo 2) else .ok 0
  .ok ⟨width, height, x, y⟩

/-- Inner token loop of `get_display_geometry`: the first token containing
both `'x'` and `'+'` is parsed and returned (value or exception); `none`
when no token qualifies. -/
def findGeoInParts : List (List Char) → Option (Except PyErr Geometry)
  | [] => none
  | p :: rest =>
    if pyIn xTokS p && pyIn plusTokS p then some (parseGeoToken p)
    else findGeoInParts rest

/-- Outer line loop of `get_display_geometry`: on the first line containing
the display name and `'connected'` (no leading space here, unlike
`is_display_active`), return the parse of its first geometry-shaped token;
if that line has none, keep scanning; `none` when no line yields one. -/
def geoScanLines (name : List Char) : List (List Char) →
    Except PyErr (Option Geometry)
  | [] => .ok none
  | line :: rest =>
    if pyIn name line && pyIn connectedS line then
      match findGeoInParts (pySplitWs line) with
      | some r => do
        let g ← r
        .ok (some g)
      | none => geoScanLines name rest
    else geoScanLines name rest

/-- `DisplayManager.get_display_geometry`: parse `xrandr --query` output;
catch-all converts any failure to `None`. -/
def DisplayManager.get_display_geometry (name : List Char)
    (o : SubprocOutcome) : Except PyErr (Option Geometry) :=
  pyCatchAll (do
    let r ← pyRun o
    geoScanLines name (splitOnC '\n' r.stdout)) none

/-- `DisplayManager._command_exists`: `subprocess.run(['which', command],
check=True, timeout=2)` guarded by
`except (CalledProcessError, TimeoutExpired)` **only** — any other
exception (e.g. `FileNotFoundError` when the probe executable itself
cannot be run) escapes to the caller. -/
def DisplayManager.command_exists (o : SubprocOutcome) : Except PyErr Bool :=
  match pyRunCheck o with
  | .ok _ => .ok true
  | .error .calledProcessError => .ok false
  | .error .timeoutExpired => .ok false
  | .error e => .error e

/-- Environment of one `display_fullscreen_image` call: the
`os.path.exists` answer, the `xrandr --query` outcome consumed by
`get_display_geometry`, the two `which` probe outcomes, and the outcome of
each possible `subprocess.Popen` (a handle, or the exception it raises). -/
structure FsEnv where
  imageExists : Bool
  displayName : List Char
  xrandrOut : SubprocOutcome
  whichFeh : SubprocOutcome
  whichImv : SubprocOutcome
  popenFeh : Except PyErr Nat
  popenImv : Except PyErr Nat

/-- `DisplayManager.display_fullscreen_image`: returns a process handle on
success and `None` on every handled failure; note that the
`_command_exists` probes are **not** inside any `try` block, so their
exceptions propagate out of this method. -/
def DisplayManager.display_fullscreen_image (env : FsEnv) :
    Except PyErr (Option Nat) := do
  if env.imageExists = false then
    return none
  let geometry ← DisplayManager.get_display_geometry env.displayName env.xrandrOut
  match geometry with
  | none => return none
  | some _ =>
    let fehOk ← DisplayManager.command_exists env.whichFeh
    if fehOk then
      match env.popenFeh with
      | .ok p => return (some p)
      | .error _ => return none
    else
      let imvOk ← DisplayManager.command_exists env.whichImv
      if imvOk then
        match env.popenImv with
        | .ok p => return (some p)
        | .error _ => return none
      else
        return none

/-! ## WacomManager (`src/WacomManager.py`) -/

def wacomS : List Char := "wacom".data

def goodixS : List Char := "goodix".data

def touchscreenS : List Char := "touchscreen".data

def fingerS : List Char := "finger".data

def touchS : List Char := "touch".data

def penS : List Char := "pen".data

def stylusS : List Char := "stylus".data

def idEqS : List Char := "id=".data

def arrowS : List Char := "↳".data

/-- One parsed device entry (`{'name': ..., 'id': ...}`). -/
structure Device where
  name : List Char
  id : List Char
  deriving DecidableEq

/-- The two device lists returned by `get_touch_devices`. -/
structure TouchDevs where
  eink : List Device
  oled : List Device
  deriving DecidableEq

/-- Loop body of `get_touch_devices` for one line of `xinput list` output:
touch-capability detection (`wacom`/`goodix`/`touchscreen`/`finger`/
`touch` in the lowered line), id and name extraction, then the
classification chain.  Note the `wacom` branch appends nowhere when the
name has none of `pen`/`stylus`/`finger`/`touch`. -/
def WacomManager.processLine (line : List Char) (acc : TouchDevs) :
    Except PyErr TouchDevs :=
  let lower_line := pyLower line
  let td : Bool × List Char :=
    if pyIn wacomS lower_line then (true, lower_line)
    else if pyIn goodixS lower_line then (true, lower_line)
    else if pyIn touchscreenS lower_line || pyIn fingerS lower_line ||
        pyIn touchS lower_line then (true, lower_line)
    else (false, [])
  if td.1 && pyIn idEqS line then
    let parts := splitOnSub idEqS line
    if parts.length ≥ 2 then do
      let p1 ← pyGetItem parts 1
      let device_id ← pyGetItem (pySplitWs p1) 0
      let name_part ←
        if pyIn arrowS line then do
          let seg ← pyGetItem (splitOnSub arrowS line) 1
          let n0 ← pyGetItem (splitOnSub idEqS seg) 0
          .ok (stripWs n0)
        else do
          let n0 ← pyGetItem (splitOnSub idEqS line) 0
          .ok (stripWs n0)
      let device_info : Device := ⟨name_part, device_id⟩
      let dn := td.2
      if pyIn goodixS dn then
        .ok ⟨acc.eink ++ [device_info], acc.oled⟩
      else if pyIn wacomS dn then
        if pyIn penS dn || pyIn stylusS dn then
          .ok ⟨acc.eink, acc.oled ++ [device_info]⟩
        else if pyIn fingerS dn || pyIn touchS dn then
          .ok ⟨acc.eink, acc.oled ++ [device_info]⟩
        else
          .ok acc
      else
        .ok ⟨acc.eink, acc.oled ++ [device_info]⟩
    else .ok acc
  else .ok acc

/-- The whole line loop of `get_touch_devices`. -/
def WacomManager.processLines : List (List Char) → TouchDevs →
    Except PyErr TouchDevs
  | [], acc => .ok acc
  | line :: rest, acc => do
    let acc2 ← WacomManager.processLine line acc
    WacomManager.processLines rest acc2

/-- `WacomManager.get_touch_devices`: run `xinput list` (no `check`),
classify every line; catch-all converts any failure to empty lists. -/
def WacomManager.get_touch_devices (o : SubprocOutcome) :
    Except PyErr TouchDevs :=
  pyCatchAll (do
    let r ← pyRun o
    WacomManager.processLines (splitOnC '\n' r.stdout) ⟨[], []⟩) ⟨[], []⟩

/-- `WacomManager.set_touch_enabled`: `xinput enable/disable <id>` with
`check=True`; catch-all converts any failure to `False`. -/
def WacomManager.set_touch_enabled (o : SubprocOutcome) : Except PyErr Bool :=
  pyCatchAll (do
    let _ ← pyRunCheck o
    .ok true) false

/-! ## Generic `Except` lemmas -/

@[simp] theorem exceptBind_ok (a : α) (f : α → Except ε β) :
    ((Except.ok a : Except ε α) >>= f) = f a := rfl

@[simp] theorem exceptBind_error (e : ε) (f : α → Except ε β) :
    ((Except.error e : Except ε α) >>= f) = Except.error e := rfl

@[simp] theorem exceptPure (a : α) : (pure a : Except ε α) = Except.ok a := rfl

theorem exceptBind_eq_ok {x : Except ε α} {f : α → Except ε β} {b : β} :
    (x >>= f) = .ok b ↔ ∃ a, x = .ok a ∧ f a = .ok b := by
  cases x <;> simp

theorem pyCatchAll_ok (b : Except PyErr α) (d : α) :
    ∃ a, pyCatchAll b d = .ok a := by
  cases b <;> exact ⟨_, rfl⟩

theorem exceptOk_pyCatchAll (b : Except PyErr α) (d : α) :
    exceptOk (pyCatchAll b d) = true := by
  cases b <;> rfl

theorem pyRunCheck_completed (r : SubprocResult) :
    pyRunCheck (.completed r) =
      if r.returncode ≠ 0 then .error .calledProcessError else .ok r := rfl

/-- The capability probe raises exactly when the probe command itself
cannot be executed; in every other outcome it returns a Boolean. -/
theorem command_exists_ok (o : SubprocOutcome)
    (h : o ≠ SubprocOutcome.execMissing) :
    ∃ b, DisplayManager.command_exists o = .ok b := by
  cases o with
  | completed r =>
    by_cases hr : r.returncode = 0
    · refine ⟨true, ?_⟩
      unfold DisplayManager.command_exists
      rw [pyRunCheck_completed]
      simp [hr]
    · refine ⟨false, ?_⟩
      unfold DisplayManager.command_exists
      rw [pyRunCheck_completed]
      simp [hr]
  | timedOut => exact ⟨false, rfl⟩
  | execMissing => exact absurd rfl h

theorem get_display_geometry_ok (name : List Char) (o : SubprocOutcome) :
    ∃ g, DisplayManager.get_display_geometry name o = .ok g :=
  pyCatchAll_ok _ _

/-- C7 counterexample: with the image present and the geometry resolvable,
a `which feh` probe whose executable is missing makes
`display_fullscreen_image` raise `FileNotFoundError` to its caller instead
of returning a value — refuting the claim that no collaborator-layer
method lets an exception propagate for any subprocess outcome. -/
theorem C7_counterexample :
    DisplayManager.display_fullscreen_image
      ⟨true, "eDP-2".data,
        .completed ⟨0, "eDP-2 connected 1200x1920+1920+0".data⟩,
        .execMissing, .completed ⟨0, []⟩, .ok 5, .ok 6⟩
      = .error .fileNotFoundError := rfl

/-- C7 amended: every collaborator method except `display_fullscreen_image`
catches all exceptions and returns its default-typed result for every
subprocess outcome; `display_fullscreen_image` does so too **provided**
neither `which` probe raises outside `(CalledProcessError,
TimeoutExpired)` — i.e. provided the probe executables themselves can be
run; otherwise that exception propagates uncaught (see the
counterexample). -/
theorem C7_amended_boundary_errors (name : List Char)
    (o1 o2 o3 o4 o5 o6 o7 o8 o9 o10 : SubprocOutcome) (env : FsEnv)
    (hFeh : env.whichFeh ≠ SubprocOutcome.execMissing)
    (hImv : env.whichImv ≠ SubprocOutcome.execMissing) :
    exceptOk (DisplayManager.get_displays o1) = true
    ∧ exceptOk (DisplayManager.is_display_active name o2) = true
    ∧ exceptOk (DisplayManager.set_primary o3) = true
    ∧ exceptOk (DisplayManager.enable_display name o4 o5) = true
    ∧ exceptOk (DisplayManager.disable_display name o6 o7) = true
    ∧ exceptOk (DisplayManager.get_display_geometry name o8) = true
    ∧ exceptOk (WacomManager.get_touch_devices o9) = true
    ∧ exceptOk (WacomManager.set_touch_enabled o10) = true
    ∧ exceptOk (DisplayManager.display_fullscreen_image env) = true := by
  refine ⟨exceptOk_pyCatchAll _ _, exceptOk_pyCatchAll _ _,
    exceptOk_pyCatchAll _ _, exceptOk_pyCatchAll _ _, exceptOk_pyCatchAll _ _,
    exceptOk_pyCatchAll _ _, exceptOk_pyCatchAll _ _, exceptOk_pyCatchAll _ _,
    ?_⟩
  obtain ⟨ie, dn, xo, wf, wi, pf, pi⟩ := env
  simp only at hFeh hImv
  cases ie
  · rfl
  · unfold DisplayManager.display_fullscreen_image
    obtain ⟨g, hg⟩ := get_display_geometry_ok dn xo
    obtain ⟨bf, hbf⟩ := command_exists_ok wf hFeh
    obtain ⟨bi, hbi⟩ := command_exists_ok wi hImv
    simp only [Bool.true_eq_false, if_false, hg, exceptBind_ok]
    cases g with
    | none => rfl
    | some g0 =>
      simp only [hbf, exceptBind_ok]
      cases bf
      · simp only [Bool.false_eq_true, if_false, hbi, exceptBind_ok]
        cases bi
        · rfl
        · cases pi <;> rfl
      · simp only [if_true]
        cases pf <;> rfl

/-- Witness for C7 (amended) at concrete outcomes: timeouts everywhere and
a successful feh path. -/
theorem C7_witness :
    exceptOk (DisplayManager.display_fullscreen_image
      ⟨true, "eDP-2".data,
        .completed ⟨0, "eDP-2 connected 1200x1920+1920+0".data⟩,
        .completed ⟨0, []⟩, .completed ⟨0, []⟩, .ok 5, .ok 6⟩) = true :=
  (C7_amended_boundary_errors [] .timedOut .timedOut .timedOut .timedOut
    .timedOut .timedOut .timedOut .timedOut .timedOut .timedOut
    ⟨true, "eDP-2".data,
      .completed ⟨0, "eDP-2 connected 1200x1920+1920+0".data⟩,
      .completed ⟨0, []⟩, .completed ⟨0, []⟩, .ok 5, .ok 6⟩
    (by decide) (by decide)).2.2.2.2.2.2.2.2

/-! ## Lemmas for the geometry scan -/

/-- Lines failing the `display_name in line and 'connected' in line` test
are skipped by the scan. -/
theorem geoScan_skip (name : List Char) :
    ∀ (pre rest : List (List Char)),
      (∀ l ∈ pre, (pyIn name l && pyIn connectedS l) = false) →
      geoScanLines name (pre ++ rest) = geoScanLines name rest
  | [], _, _ => rfl
  | l :: pre, rest, hp => by
    have h0 : (pyIn name l && pyIn connectedS l) = false := hp l (.head _)
    simp only [List.cons_append, geoScanLines, h0, Bool.false_eq_true,
      if_false]
    exact geoScan_skip name pre rest (fun t ht => hp t (.tail _ ht))

/-- Tokens without both `'x'` and `'+'` are skipped by the token loop. -/
theorem findGeo_skip :
    ∀ (toksPre rest : List (List Char)),
      (∀ t ∈ toksPre, (pyIn xTokS t && pyIn plusTokS t) = false) →
      findGeoInParts (toksPre ++ rest) = findGeoInParts rest
  | [], _, _ => rfl
  | t :: pre, rest, hp => by
    have h0 : (pyIn xTokS t && pyIn plusTokS t) = false := hp t (.head _)
    simp only [List.cons_append, findGeoInParts, h0, Bool.false_eq_true,
      if_false]
    exact findGeo_skip pre rest (fun u hu => hp u (.tail _ hu))

/-- C9: for any xrandr output whose lines up to the first match do not
match, whose matching line's first token containing both `'x'` and `'+'`
has the shape `WIDTHxHEIGHT+X+Y`, and whose four fields parse as the
integers `w`, `h`, `x`, `y`, the method returns
`{width := w, height := h, x := x, y := y}` — in particular the spec's
`"1200x1920+1920+0"` scenario (see the witness). -/
theorem C9_geometry_parsing (name : List Char) (rc : Int) (stdout : List Char)
    (pre post : List (List Char)) (line : List Char)
    (toksPre toksPost : List (List Char)) (geoTok wxh wa hb xc yd : List Char)
    (w h x y : Int)
    (hsplit : splitOnC '\n' stdout = pre ++ line :: post)
    (hpre : ∀ l ∈ pre, (pyIn name l && pyIn connectedS l) = false)
    (hline : (pyIn name line && pyIn connectedS line) = true)
    (htoks : pySplitWs line = toksPre ++ geoTok :: toksPost)
    (htoksPre : ∀ t ∈ toksPre, (pyIn xTokS t && pyIn plusTokS t) = false)
    (hgeoTok : (pyIn xTokS geoTok && pyIn plusTokS geoTok) = true)
    (hplus : splitOnC '+' geoTok = [wxh, xc, yd])
    (hxsplit : splitOnC 'x' wxh = [wa, hb])
    (hw : strToInt? wa = some w) (hh : strToInt? hb = some h)
    (hxo : strToInt? xc = some x) (hyo : strToInt? yd = some y) :
    DisplayManager.get_display_geometry name (.completed ⟨rc, stdout⟩)
      = .ok (some ⟨w, h, x, y⟩) := by
  have hparse : parseGeoToken geoTok = .ok ⟨w, h, x, y⟩ := by
    unfold parseGeoToken
    simp only [hplus, hxsplit, pyGetItem, pyInt, List.get?, hw, hh, hxo, hyo,
      exceptBind_ok, List.length_cons, List.length_nil]
    norm_num
  have hbody : geoScanLines name (splitOnC '\n' stdout)
      = .ok (some (⟨w, h, x, y⟩ : Geometry)) := by
    rw [hsplit, geoScan_skip name pre _ hpre]
    simp only [geoScanLines, hline, if_true]
    rw [htoks, findGeo_skip _ _ htoksPre]
    simp only [findGeoInParts, hgeoTok, if_true, hparse, exceptBind_ok]
  show pyCatchAll (geoScanLines name (splitOnC '\n' stdout)) none
      = .ok (some ⟨w, h, x, y⟩)
  rw [hbody]
  rfl

/-- Witness for C9: the spec's concrete scenario — a query output whose
matching line carries `1200x1920+1920+0` parses to
`{width := 1200, height := 1920, x := 1920, y := 0}`. -/
theorem C9_witness :
    DisplayManager.get_display_geometry ("eDP-2".data)
      (.completed ⟨0,
        ("Screen 0: current 3120 x 1920\neDP-2 connected 1200x1920+1920+0").data⟩)
      = .ok (some ⟨1200, 1920, 1920, 0⟩) :=
  C9_geometry_parsing "eDP-2".data 0
    ("Screen 0: current 3120 x 1920\neDP-2 connected 1200x1920+1920+0").data
    ["Screen 0: current 3120 x 1920".data] []
    "eDP-2 connected 1200x1920+1920+0".data
    ["eDP-2".data, "connected".data] [] "1200x1920+1920+0".data
    "1200x1920".data "1200".data "1920".data "1920".data "0".data
    1200 1920 1920 0
    (by decide) (by decide) (by decide) (by decide) (by decide) (by decide)
    (by decide) (by decide) (by decide) (by decide) (by decide) (by decide)

/-! ## Lemmas for the device-line parser -/

theorem splitOnSubFuel_ne_nil (sep : List Char) :
    ∀ (fuel : Nat) (s : List Char), splitOnSubFuel sep fuel s ≠ []
  | 0, s => by simp [splitOnSubFuel]
  | _ + 1, [] => by simp [splitOnSubFuel]
  | fuel + 1, c :: rest => by
    unfold splitOnSubFuel
    split_ifs with hpf
    · simp
    · cases hr : splitOnSubFuel sep fuel rest <;> simp

theorem splitOnSub_ne_nil (sep s : List Char) : splitOnSub sep s ≠ [] :=
  splitOnSubFuel_ne_nil sep s.length s

/-- When the separator occurs in the (sufficiently fuelled) input, the
split has at least two fields. -/
theorem splitOnSubFuel_length_two (sep : List Char) (hsep : sep ≠ []) :
    ∀ (fuel : Nat) (s : List Char), s.length ≤ fuel → pyIn sep s = true →
      2 ≤ (splitOnSubFuel sep fuel s).length
  | fuel, [], _, hin => by
    obtain ⟨c, cs, rfl⟩ : ∃ c cs, sep = c :: cs := by
      cases sep with
      | nil => exact absurd rfl hsep
      | cons c cs => exact ⟨c, cs, rfl⟩
    simp [pyIn, isPrefixL] at hin
  | 0, c :: rest, hlen, _ => by simp at hlen
  | fuel + 1, c :: rest, hlen, hin => by
    unfold splitOnSubFuel
    split_ifs with hpf
    · cases hr : splitOnSubFuel sep fuel (rest.drop (sep.length - 1)) with
      | nil => exact absurd hr (splitOnSubFuel_ne_nil sep fuel _)
      | cons a t => simp
    · have hin2 : pyIn sep rest = true := by
        simp only [pyIn, Bool.or_eq_true] at hin
        rcases hin with hin | hin
        · exact absurd hin hpf
        · exact hin
      have hlen2 : rest.length ≤ fuel := by
        simp only [List.length_cons] at hlen
        omega
      have hrec := splitOnSubFuel_length_two sep hsep fuel rest hlen2 hin2
      cases hr : splitOnSubFuel sep fuel rest with
      | nil => exact absurd hr (splitOnSubFuel_ne_nil sep fuel rest)
      | cons a t =>
        rw [hr] at hrec
        simp only [List.length_cons] at hrec ⊢
        omega

theorem splitOnSub_length_two (sep : List Char) (hsep : sep ≠ [])
    (s : List Char) (hin : pyIn sep s = true) :
    2 ≤ (splitOnSub sep s).length :=
  splitOnSubFuel_length_two sep hsep s.length s le_rfl hin

theorem two_le_length_shape {l : List α} (h2 : 2 ≤ l.length) :
    ∃ a b t, l = a :: b :: t := by
  cases l with
  | nil => simp at h2
  | cons a l1 =>
    cases l1 with
    | nil => simp at h2
    | cons b t => exact ⟨a, b, t, rfl⟩

theorem isPrefixL_trans :
    ∀ (p q s : List Char), isPrefixL p q = true → isPrefixL q s = true →
      isPrefixL p s = true
  | [], _, _, _, _ => rfl
  | _ :: _, [], _, hpq, _ => by simp [isPrefixL] at hpq
  | _ :: _, _ :: _, [], _, hqs => by simp [isPrefixL] at hqs
  | a :: p, b :: q, c :: s, hpq, hqs => by
    simp only [isPrefixL, Bool.and_eq_true, decide_eq_true_eq] at hpq hqs ⊢
    exact ⟨hpq.1.trans hqs.1, isPrefixL_trans p q s hpq.2 hqs.2⟩

/-- Substring containment is antitone in the needle: a hit for `q`
is a hit for any prefix `p` of `q`. -/
theorem pyIn_antitone_needle (p q : List Char) (hpq : isPrefixL p q = true) :
    ∀ hay, pyIn q hay = true → pyIn p hay = true
  | [], h => by
    simp only [pyIn] at h ⊢
    exact isPrefixL_trans p q [] hpq h
  | c :: rest, h => by
    simp only [pyIn, Bool.or_eq_true] at h ⊢
    rcases h with h | h
    · exact Or.inl (isPrefixL_trans p q (c :: rest) hpq h)
    · exact Or.inr (pyIn_antitone_needle p q hpq rest h)

/-- A line containing `touchscreen` contains `touch`. -/
theorem pyIn_touchscreen_imp_touch (hay : List Char)
    (h : pyIn touchscreenS hay = true) : pyIn touchS hay = true :=
  pyIn_antitone_needle touchS touchscreenS (by decide) hay h

/-- Full evaluation of the loop body on a touch-capable device line with a
well-formed `id=` field: some device entry `d` is extracted and then
classified by the goodix/wacom/pen/stylus/finger/touch chain on the
lowered line. -/
theorem processLine_eval (line : List Char) (acc : TouchDevs)
    (hid : pyIn idEqS line = true)
    (htok : pySplitWs ((splitOnSub idEqS line).getD 1 []) ≠ [])
    (htouch : (pyIn wacomS (pyLower line) || pyIn goodixS (pyLower line) ||
      (pyIn touchscreenS (pyLower line) || pyIn fingerS (pyLower line) ||
        pyIn touchS (pyLower line))) = true) :
    ∃ d : Device,
      WacomManager.processLine line acc =
        (if pyIn goodixS (pyLower line) then
          Except.ok ⟨acc.eink ++ [d], acc.oled⟩
        else if pyIn wacomS (pyLower line) then
          if pyIn penS (pyLower line) || pyIn stylusS (pyLower line) then
            Except.ok ⟨acc.eink, acc.oled ++ [d]⟩
          else if pyIn fingerS (pyLower line) || pyIn touchS (pyLower line) then
            Except.ok ⟨acc.eink, acc.oled ++ [d]⟩
          else Except.ok acc
        else Except.ok ⟨acc.eink, acc.oled ++ [d]⟩) := by
  have hlen2 : 2 ≤ (splitOnSub idEqS line).length :=
    splitOnSub_length_two idEqS (by decide) line hid
  obtain ⟨p0, p1, pt, hparts⟩ := two_le_length_shape hlen2
  rw [hparts] at htok
  simp only [List.getD_cons_succ, List.getD_cons_zero] at htok
  cases htokc : pySplitWs p1 with
  | nil => exact absurd htokc htok
  | cons tok toks =>
  have htd : (if pyIn wacomS (pyLower line) then (true, pyLower line)
      else if pyIn goodixS (pyLower line) then (true, pyLower line)
      else if pyIn touchscreenS (pyLower line) || pyIn fingerS (pyLower line) ||
          pyIn touchS (pyLower line) then (true, pyLower line)
      else (false, ([] : List Char))) = (true, pyLower line) := by
    by_cases h1 : pyIn wacomS (pyLower line) = true
    · simp [h1]
    · by_cases h2 : pyIn goodixS (pyLower line) = true
      · simp [h1, h2]
      · have h3 : (pyIn touchscreenS (pyLower line) ||
            pyIn fingerS (pyLower line) || pyIn touchS (pyLower line)) = true := by
          simp only [Bool.not_eq_true] at h1 h2
          simpa [h1, h2] using htouch
        simp [h1, h2, h3]
  unfold WacomManager.processLine
  simp only [htd, hid, Bool.and_true, hparts, List.length_cons]
  rw [if_pos (by omega : (2 : Nat) ≤ pt.length + 1 + 1)]
  simp only [pyGetItem, List.get?, htokc, exceptBind_ok]
  by_cases harr : pyIn arrowS line = true
  · obtain ⟨q0, q1, qt, harrp⟩ := two_le_length_shape
      (splitOnSub_length_two arrowS (by decide) line harr)
    cases hseg : splitOnSub idEqS q1 with
    | nil => exact absurd hseg (splitOnSub_ne_nil idEqS q1)
    | cons n0 nt =>
      simp only [harr, if_true, harrp, hseg, pyGetItem, List.get?,
        exceptBind_ok]
      exact ⟨⟨stripWs n0, tok⟩, rfl⟩
  · simp only [Bool.not_eq_true] at harr
    simp only [harr, Bool.false_eq_true, if_false, pyGetItem, List.get?,
      exceptBind_ok]
    exact ⟨⟨stripWs p0, tok⟩, rfl⟩

/-- C8 counterexample: the line `"↳ Wacom Pad id=9 [slave pointer]"` is
touch-capable by the code's own detection (it contains `wacom`) but
contains none of `goodix`/`pen`/`stylus`/`finger`/`touch`, and the code
places it in **neither** list — refuting the claim that every other
touch-capable device defaults to the primary list. -/
theorem C8_counterexample :
    WacomManager.get_touch_devices
      (.completed ⟨0, "↳ Wacom Pad id=9 [slave pointer]".data⟩)
      = .ok ⟨[], []⟩
    ∧ pyIn wacomS (pyLower "↳ Wacom Pad id=9 [slave pointer]".data) = true :=
  ⟨rfl, rfl⟩

/-- C8 amended: for every touch-capable device line with a well-formed
`id=` field: a name containing `goodix` goes to the secondary (eink) list;
otherwise a name containing `pen`/`stylus` goes to the primary (oled)
list; otherwise a name containing `finger`/`touch` goes to the primary
list; but a remaining touch-capable device (necessarily a `wacom` name
with none of those tokens) is placed in **neither** list rather than
defaulting to the primary list. -/
theorem C8_amended_classification (line : List Char) (acc : TouchDevs)
    (hid : pyIn idEqS line = true)
    (htok : pySplitWs ((splitOnSub idEqS line).getD 1 []) ≠ []) :
    (pyIn goodixS (pyLower line) = true →
      ∃ d, WacomManager.processLine line acc
        = .ok ⟨acc.eink ++ [d], acc.oled⟩)
    ∧ ((pyIn wacomS (pyLower line) || pyIn goodixS (pyLower line) ||
        (pyIn touchscreenS (pyLower line) || pyIn fingerS (pyLower line) ||
          pyIn touchS (pyLower line))) = true →
      pyIn goodixS (pyLower line) = false →
      (pyIn penS (pyLower line) || pyIn stylusS (pyLower line)) = true →
      ∃ d, WacomManager.processLine line acc
        = .ok ⟨acc.eink, acc.oled ++ [d]⟩)
    ∧ ((pyIn wacomS (pyLower line) || pyIn goodixS (pyLower line) ||
        (pyIn touchscreenS (pyLower line) || pyIn fingerS (pyLower line) ||
          pyIn touchS (pyLower line))) = true →
      pyIn goodixS (pyLower line) = false →
      (pyIn fingerS (pyLower line) || pyIn touchS (pyLower line)) = true →
      ∃ d, WacomManager.processLine line acc
        = .ok ⟨acc.eink, acc.oled ++ [d]⟩)
    ∧ ((pyIn wacomS (pyLower line) || pyIn goodixS (pyLower line) ||
        (pyIn touchscreenS (pyLower line) || pyIn fingerS (pyLower line) ||
          pyIn touchS (pyLower line))) = true →
      pyIn goodixS (pyLower line) = false →
      pyIn penS (pyLower line) = false →
      pyIn stylusS (pyLower line) = false →
      pyIn fingerS (pyLower line) = false →
      pyIn touchS (pyLower line) = false →
      WacomManager.processLine line acc = .ok acc) := by
  refine ⟨?_, ?_, ?_, ?_⟩
  · intro hg
    have htc : (pyIn wacomS (pyLower line) || pyIn goodixS (pyLower line) ||
        (pyIn touchscreenS (pyLower line) || pyIn fingerS (pyLower line) ||
          pyIn touchS (pyLower line))) = true := by simp [hg]
    obtain ⟨d, hd⟩ := processLine_eval line acc hid htok htc
    exact ⟨d, by rw [hd]; simp [hg]⟩
  · intro htc hgf hps
    obtain ⟨d, hd⟩ := processLine_eval line acc hid htok htc
    refine ⟨d, ?_⟩
    rw [hd]
    by_cases hw : pyIn wacomS (pyLower line) = true
    · simp [hgf, hw, hps]
    · simp [hgf, hw]
  · intro htc hgf hft
    obtain ⟨d, hd⟩ := processLine_eval line acc hid htok htc
    refine ⟨d, ?_⟩
    rw [hd]
    by_cases hw : pyIn wacomS (pyLower line) = true
    · by_cases hps : (pyIn penS (pyLower line) ||
          pyIn stylusS (pyLower line)) = true
      · simp [hgf, hw, hps]
      · simp [hgf, hw, hps, hft]
    · simp [hgf, hw]
  · intro htc hgf hp hs hf ht
    have hts : pyIn touchscreenS (pyLower line) = false := by
      cases hscr : pyIn touchscreenS (pyLower line) with
      | false => rfl
      | true =>
        exact absurd (pyIn_touchscreen_imp_touch _ hscr) (by simp [ht])
    have hw : pyIn wacomS (pyLower line) = true := by
      simpa [hgf, hts, hf, ht] using htc
    obtain ⟨d, hd⟩ := processLine_eval line acc hid htok htc
    rw [hd]
    simp [hgf, hw, hp, hs, hf, ht]

/-- Witness for C8 (amended): a `goodix` touchscreen line is appended to
the secondary (eink) list. -/
theorem C8_witness :
    ∃ d, WacomManager.processLine
      "↳ Goodix TouchScreen id=12 [slave pointer]".data ⟨[], []⟩
      = .ok ⟨(⟨[], []⟩ : TouchDevs).eink ++ [d], (⟨[], []⟩ : TouchDevs).oled⟩ :=
  (C8_amended_classification "↳ Goodix TouchScreen id=12 [slave pointer]".data
    ⟨[], []⟩ (by decide) (by decide)).1 (by decide)

/-- C10 counterexample: two distinct lines that parse to the **same**
device entry (`name "Foo touch"`, `id "7"`), one classified `goodix`
(eink) and one defaulted (oled), make the same entry appear in both
returned lists — refuting the claim that the two lists are always
disjoint. -/
theorem C10_counterexample :
    WacomManager.get_touch_devices (.completed ⟨0,
      ("↳ Foo touch id=7 goodix\n↳ Foo touch id=7 [slave pointer]").data⟩)
      = .ok ⟨[⟨"Foo touch".data, "7".data⟩], [⟨"Foo touch".data, "7".data⟩]⟩ :=
  rfl

/-- Classification tail of the loop body: whatever the four Boolean tests
are, the result appends the extracted device to exactly one list or leaves
the accumulator unchanged. -/
theorem classify_shape {acc acc2 : TouchDevs} (c1 c2 c3 c4 : Bool) (d : Device)
    (h : (if c1 = true then
        (Except.ok (⟨acc.eink ++ [d], acc.oled⟩ : TouchDevs) :
          Except PyErr TouchDevs)
      else if c2 = true then
        if c3 = true then Except.ok ⟨acc.eink, acc.oled ++ [d]⟩
        else if c4 = true then Except.ok ⟨acc.eink, acc.oled ++ [d]⟩
        else Except.ok acc
      else Except.ok ⟨acc.eink, acc.oled ++ [d]⟩) = .ok acc2) :
    acc2 = acc ∨ (∃ e, acc2 = ⟨acc.eink ++ [e], acc.oled⟩)
      ∨ (∃ e, acc2 = ⟨acc.eink, acc.oled ++ [e]⟩) := by
  split_ifs at h
  · exact Or.inr (Or.inl ⟨d, by injection h with h2; exact h2.symm⟩)
  · exact Or.inr (Or.inr ⟨d, by injection h with h2; exact h2.symm⟩)
  · exact Or.inr (Or.inr ⟨d, by injection h with h2; exact h2.symm⟩)
  · injection h with h2
    exact Or.inl h2.symm
  · exact Or.inr (Or.inr ⟨d, by injection h with h2; exact h2.symm⟩)

/-- C10 amended: each single device line is appended to at most one of the
two lists (the loop body either leaves the accumulator unchanged or
appends exactly one entry to exactly one list); disjointness of the final
lists can still fail when distinct lines yield equal entries (see the
counterexample). -/
theorem C10_amended_single_append (line : List Char) (acc acc2 : TouchDevs)
    (h : WacomManager.processLine line acc = .ok acc2) :
    acc2 = acc ∨ (∃ d, acc2 = ⟨acc.eink ++ [d], acc.oled⟩)
      ∨ (∃ d, acc2 = ⟨acc.eink, acc.oled ++ [d]⟩) := by
  unfold WacomManager.processLine at h
  simp only [exceptBind_eq_ok] at h
  generalize htd : (if pyIn wacomS (pyLower line) = true then (true, pyLower line)
      else if pyIn goodixS (pyLower line) = true then (true, pyLower line)
      else if (pyIn touchscreenS (pyLower line) || pyIn fingerS (pyLower line) ||
          pyIn touchS (pyLower line)) = true then (true, pyLower line)
      else (false, ([] : List Char))) = td at h
  obtain ⟨tb, tdn⟩ := td
  cases tb
  · simp only [Bool.false_and, Bool.false_eq_true, if_false] at h
    injection h with h2
    exact Or.inl h2.symm
  · simp only [Bool.true_and] at h
    split at h
    · split at h
      · by_cases harr : pyIn arrowS line = true
        · simp only [harr, if_true, exceptBind_eq_ok] at h
          obtain ⟨p1, -, did, -, seg, -, n0, -, y, -, hcls⟩ := h
          exact classify_shape _ _ _ _ _ hcls
        · simp only [Bool.not_eq_true] at harr
          simp only [harr, Bool.false_eq_true, if_false, exceptBind_eq_ok] at h
          obtain ⟨p1, -, did, -, n0, -, y, -, hcls⟩ := h
          exact classify_shape _ _ _ _ _ hcls
      · injection h with h2
        exact Or.inl h2.symm
    · injection h with h2
      exact Or.inl h2.symm

/-- Witness for C10 (amended) on a concrete goodix line: the accumulator
gains exactly one entry, in the eink list. -/
theorem C10_witness :
    (⟨[⟨"Goodix TouchScreen".data, "12".data⟩], []⟩ : TouchDevs)
        = (⟨[], []⟩ : TouchDevs)
    ∨ (∃ d, (⟨[⟨"Goodix TouchScreen".data, "12".data⟩], []⟩ : TouchDevs)
        = ⟨(⟨[], []⟩ : TouchDevs).eink ++ [d], (⟨[], []⟩ : TouchDevs).oled⟩)
    ∨ (∃ d, (⟨[⟨"Goodix TouchScreen".data, "12".data⟩], []⟩ : TouchDevs)
        = ⟨(⟨[], []⟩ : TouchDevs).eink, (⟨[], []⟩ : TouchDevs).oled ++ [d]⟩) :=
  C10_amended_single_append
    "↳ Goodix TouchScreen id=12 [slave pointer]".data ⟨[], []⟩
    ⟨[⟨"Goodix TouchScreen".data, "12".data⟩], []⟩ rfl
